import Mathlib

/-!
Shallow embedding of the WebRtcSession signaling logic
(talk/app/webrtc/webrtcsession.cc) and proofs of its specified properties.

Each definition mirrors one function of the source file; stateful methods
become explicit state-passing functions over small record types holding the
fields the method reads and writes. Calls into collaborator objects that
the session only triggers (channel Enable/Mute, observer notification,
message posting, candidate forwarding) are recorded in explicit logs so
that side-effect claims become statements about those logs.
-/

namespace WebRtc

/-- Session states used by the excerpt (cricket::BaseSession state values
reached by WebRtcSession::NegotiationDone). -/
inductive SessionState where
  | STATE_INIT
  | STATE_SENTINITIATE
  | STATE_RECEIVEDACCEPT
  deriving DecidableEq, Repr

/-- A transport candidate. The session logic inspects only the channel
name; the remaining endpoint data travels along unchanged and is modelled
by a single opaque address field. -/
structure Candidate where
  name : String
  address : String
  deriving DecidableEq, Repr

/-- kCallSetupTimeout: 30 seconds to establish a connection. -/
def kCallSetupTimeout : Nat := 30 * 1000

/-- kAllowedCandidates: one candidate per transport channel. -/
def kAllowedCandidates : Nat := 4

/-- Magic string for the video rtp channel. -/
def kRtpVideoChannelStr : String := "video_rtp"

/-- Magic string for the video rtcp channel. -/
def kRtcpVideoChannelStr : String := "video_rtcp"

/-- Message id for the candidate timeout watchdog. -/
def MSG_CANDIDATE_TIMEOUT : Nat := 101

/-- The channel names of a candidate list. -/
def candNames (l : List Candidate) : List String :=
  l.map Candidate.name

/-- WebRtcSession::CheckCandidate: linear scan of local_candidates for an
entry with the given channel name. -/
def CheckCandidate (local_candidates : List Candidate) (name : String) : Bool :=
  match local_candidates with
  | [] => false
  | c :: rest => if c.name == name then true else CheckCandidate rest name

/-- WebRtcSession::InsertTransportCandidates: append each candidate whose
channel name is not already present. -/
def InsertTransportCandidates (local_candidates : List Candidate)
    (candidates : List Candidate) : List Candidate :=
  match candidates with
  | [] => local_candidates
  | c :: rest =>
    if CheckCandidate local_candidates c.name then
      InsertTransportCandidates local_candidates rest
    else
      InsertTransportCandidates (local_candidates ++ [c]) rest

/-- The candidate-aggregation slice of WebRtcSession state: the local
candidate list, whether an observer is registered, and the log of
OnCandidatesReady notifications delivered to the observer. -/
structure CandState where
  local_candidates : List Candidate
  observer : Bool
  notifications : List (List Candidate)
  deriving DecidableEq, Repr

/-- WebRtcSession::OnTransportCandidatesReady: return immediately when the
local candidate list already has kAllowedCandidates entries; otherwise
insert the batch and, when the list then has exactly kAllowedCandidates
entries and an observer is registered, notify it with the full list. -/
def OnTransportCandidatesReady (s : CandState) (candidates : List Candidate) :
    CandState :=
  if s.local_candidates.length == kAllowedCandidates then s
  else
    let lc := InsertTransportCandidates s.local_candidates candidates
    if lc.length == kAllowedCandidates && s.observer then
      { s with local_candidates := lc, notifications := s.notifications ++ [lc] }
    else
      { s with local_candidates := lc }

/-- Events touching the candidate-aggregation slice: a candidates-ready
callback from the transport, or (de)registration of the observer. -/
inductive SessionEvent where
  | candidatesReady (batch : List Candidate)
  | registerObserver (present : Bool)
  deriving DecidableEq, Repr

/-- One event step on the candidate-aggregation state. -/
def stepCand (s : CandState) : SessionEvent → CandState
  | .candidatesReady batch => OnTransportCandidatesReady s batch
  | .registerObserver b => { s with observer := b }

/-- Run a sequence of events on the candidate-aggregation state. -/
def runCand (s : CandState) (evs : List SessionEvent) : CandState :=
  evs.foldl stepCand s

/-- Run a sequence of candidates-ready callbacks. -/
def runReady (s : CandState) (batches : List (List Candidate)) : CandState :=
  batches.foldl OnTransportCandidatesReady s

/-- The candidate-aggregation state right after session construction:
no local candidates, no notifications, observer present or not. -/
def initCandState (obs : Bool) : CandState :=
  { local_candidates := [], observer := obs, notifications := [] }

theorem checkCandidate_iff (lc : List Candidate) (n : String) :
    CheckCandidate lc n = true ↔ n ∈ candNames lc := by
  induction lc with
  | nil => simp [CheckCandidate, candNames]
  | cons c rest ih =>
    by_cases h : c.name == n
    · simp [CheckCandidate, h, candNames]
      exact Or.inl (eq_of_beq h).symm
    · simp only [CheckCandidate, h, if_false, Bool.false_eq_true, candNames,
        List.map_cons, List.mem_cons]
      rw [candNames] at ih
      rw [ih]
      constructor
      · exact Or.inr
      · rintro (h' | h')
        · exact absurd (beq_iff_eq.mpr h'.symm) (by simpa using h)
        · exact h'

theorem insert_nodup (cs : List Candidate) :
    ∀ lc : List Candidate, (candNames lc).Nodup →
      (candNames (InsertTransportCandidates lc cs)).Nodup := by
  induction cs with
  | nil => intro lc h; simpa [InsertTransportCandidates] using h
  | cons c rest ih =>
    intro lc h
    by_cases hc : CheckCandidate lc c.name = true
    · simpa [InsertTransportCandidates, hc] using ih lc h
    · have hnm : c.name ∉ candNames lc := fun hm =>
        hc ((checkCandidate_iff lc c.name).mpr hm)
      have h' : (candNames (lc ++ [c])).Nodup := by
        have : candNames (lc ++ [c]) = candNames lc ++ [c.name] := by
          simp [candNames]
        rw [this, List.nodup_append]
        refine ⟨h, List.nodup_singleton _, ?_⟩
        intro x hx
        simp only [List.mem_singleton]
        intro hxe
        exact hnm (hxe ▸ hx)
      simpa [InsertTransportCandidates, hc] using ih (lc ++ [c]) h'

theorem insert_names_mem (cs : List Candidate) :
    ∀ (lc : List Candidate) (x : String),
      x ∈ candNames (InsertTransportCandidates lc cs) →
      x ∈ candNames lc ∨ x ∈ candNames cs := by
  induction cs with
  | nil =>
    intro lc x hx
    exact Or.inl (by simpa [InsertTransportCandidates] using hx)
  | cons c rest ih =>
    intro lc x hx
    by_cases hc : CheckCandidate lc c.name = true
    · rcases ih lc x (by simpa [InsertTransportCandidates, hc] using hx) with h | h
      · exact Or.inl h
      · exact Or.inr (by simp [candNames] at h ⊢; exact Or.inr h)
    · rcases ih (lc ++ [c]) x
        (by simpa [InsertTransportCandidates, hc] using hx) with h | h
      · have : x ∈ candNames lc ∨ x = c.name := by
          simpa [candNames] using h
        rcases this with h' | h'
        · exact Or.inl h'
        · exact Or.inr (by simp [candNames, h'])
      · exact Or.inr (by simp [candNames] at h ⊢; exact Or.inr h)

theorem insert_extends (cs : List Candidate) :
    ∀ lc : List Candidate,
      ∃ t, InsertTransportCandidates lc cs = lc ++ t := by
  induction cs with
  | nil => intro lc; exact ⟨[], by simp [InsertTransportCandidates]⟩
  | cons c rest ih =>
    intro lc
    by_cases hc : CheckCandidate lc c.name = true
    · obtain ⟨t, ht⟩ := ih lc
      exact ⟨t, by simpa [InsertTransportCandidates, hc] using ht⟩
    · obtain ⟨t, ht⟩ := ih (lc ++ [c])
      refine ⟨c :: t, ?_⟩
      simp only [InsertTransportCandidates, hc, if_false, Bool.false_eq_true]
      rw [ht, List.append_assoc]
      simp

theorem insert_length_ge (lc cs : List Candidate) :
    lc.length ≤ (InsertTransportCandidates lc cs).length := by
  obtain ⟨t, ht⟩ := insert_extends cs lc
  simp [ht]

theorem nodup_subset_length_le (l allowed : List String) (hn : l.Nodup)
    (hs : ∀ x ∈ l, x ∈ allowed) : l.length ≤ allowed.length := by
  calc l.length = l.toFinset.card := (List.toFinset_card_of_nodup hn).symm
    _ ≤ allowed.toFinset.card := Finset.card_le_card (fun x hx => by
        simp only [List.mem_toFinset] at hx ⊢
        exact hs x hx)
    _ ≤ allowed.length := List.toFinset_card_le allowed

/-- Invariant of the candidate-aggregation state: channel names are
pairwise distinct and drawn from the given allowed list. -/
def CandInv (allowed : List String) (s : CandState) : Prop :=
  (candNames s.local_candidates).Nodup ∧
  ∀ x ∈ candNames s.local_candidates, x ∈ allowed

theorem ready_preserves_inv (allowed : List String) (s : CandState)
    (b : List Candidate) (hb : ∀ c ∈ b, c.name ∈ allowed)
    (h : CandInv allowed s) :
    CandInv allowed (OnTransportCandidatesReady s b) := by
  obtain ⟨hn, hs⟩ := h
  unfold OnTransportCandidatesReady
  by_cases hg : s.local_candidates.length == kAllowedCandidates
  · simpa [hg] using ⟨hn, hs⟩
  · have hn' := insert_nodup b s.local_candidates hn
    have hs' : ∀ x ∈ candNames (InsertTransportCandidates s.local_candidates b),
        x ∈ allowed := by
      intro x hx
      rcases insert_names_mem b s.local_candidates x hx with h' | h'
      · exact hs x h'
      · obtain ⟨c, hc, hcx⟩ := by simpa [candNames] using h'
        exact hcx ▸ hb c hc
    by_cases hg2 : (InsertTransportCandidates s.local_candidates b).length
        == kAllowedCandidates && s.observer
    · simpa [hg, hg2, CandInv] using ⟨hn', hs'⟩
    · simpa [hg, hg2, CandInv] using ⟨hn', hs'⟩

theorem runReady_preserves_inv (allowed : List String)
    (batches : List (List Candidate)) :
    ∀ s : CandState, (∀ b ∈ batches, ∀ c ∈ b, c.name ∈ allowed) →
      CandInv allowed s → CandInv allowed (runReady s batches) := by
  induction batches with
  | nil => intro s _ h; simpa [runReady] using h
  | cons b rest ih =>
    intro s hb h
    have h1 := ready_preserves_inv allowed s b
      (hb b (List.mem_cons_self b rest)) h
    have h2 := ih (OnTransportCandidatesReady s b)
      (fun b' hb' c hc => hb b' (List.mem_cons_of_mem b hb') c hc) h1
    simpa [runReady] using h2

/-- Concrete candidate with channel name a. -/
def candA : Candidate := { name := "a", address := "" }

/-- Concrete candidate with channel name b. -/
def candB : Candidate := { name := "b", address := "" }

/-- Concrete candidate with channel name c. -/
def candC : Candidate := { name := "c", address := "" }

/-- Concrete candidate with channel name d. -/
def candD : Candidate := { name := "d", address := "" }

/-- Concrete candidate with channel name e. -/
def candE : Candidate := { name := "e", address := "" }

/-- A single candidates-ready batch carrying five distinct channel names. -/
def batchFive : List Candidate := [candA, candB, candC, candD, candE]

/-- C2 counterexample: one candidates-ready event whose batch carries five
distinct channel names drives the local candidate set to five entries,
violating the claimed 4-entry bound. -/
theorem c2_counterexample_five_names :
    ¬ ((runReady (initCandState true) [batchFive]).local_candidates.length ≤ 4) := by
  decide

theorem ready_preserves_nodup (s : CandState) (b : List Candidate)
    (h : (candNames s.local_candidates).Nodup) :
    (candNames (OnTransportCandidatesReady s b).local_candidates).Nodup := by
  unfold OnTransportCandidatesReady
  by_cases hg : s.local_candidates.length == kAllowedCandidates
  · simpa [hg] using h
  · have h' := insert_nodup b s.local_candidates h
    by_cases hg2 : (InsertTransportCandidates s.local_candidates b).length
        == kAllowedCandidates && s.observer
    · simpa [hg, hg2] using h'
    · simpa [hg, hg2] using h'

theorem runReady_preserves_nodup (batches : List (List Candidate)) :
    ∀ s : CandState, (candNames s.local_candidates).Nodup →
      (candNames (runReady s batches).local_candidates).Nodup := by
  induction batches with
  | nil => intro s h; simpa [runReady] using h
  | cons b rest ih =>
    intro s h
    simpa [runReady] using
      ih (OnTransportCandidatesReady s b) (ready_preserves_nodup s b h)

/-- C2 (amended): for every sequence of candidates-ready events the local
candidate set never holds two entries with the same channel name, and an
event arriving when the set already holds exactly kAllowedCandidates
entries inserts nothing; the 4-entry bound itself holds whenever all
candidate names ever delivered are drawn from a list of at most four
channel names, and can be exceeded otherwise. -/
theorem c2_candidate_set_bounded (obs : Bool) (allowed : List String)
    (batches : List (List Candidate)) :
    (candNames (runReady (initCandState obs) batches).local_candidates).Nodup ∧
    ((allowed.length ≤ 4 ∧ ∀ b ∈ batches, ∀ c ∈ b, c.name ∈ allowed) →
      (runReady (initCandState obs) batches).local_candidates.length ≤ 4) ∧
    (∀ s : CandState, s.local_candidates.length = kAllowedCandidates →
      ∀ b, (OnTransportCandidatesReady s b).local_candidates =
        s.local_candidates) := by
  refine ⟨?_, ?_, ?_⟩
  · refine runReady_preserves_nodup batches (initCandState obs) ?_
    simp [initCandState, candNames]
  · rintro ⟨hA, hb⟩
    have hinv : CandInv allowed (runReady (initCandState obs) batches) := by
      refine runReady_preserves_inv allowed batches (initCandState obs) hb ?_
      constructor
      · simp [initCandState, candNames]
      · intro x hx
        simp [initCandState, candNames] at hx
    obtain ⟨hn, hs⟩ := hinv
    have hlen : (runReady (initCandState obs) batches).local_candidates.length
        = (candNames (runReady (initCandState obs) batches).local_candidates).length := by
      simp [candNames]
    rw [hlen]
    exact le_trans (nodup_subset_length_le _ allowed hn hs) hA
  · intro s h b
    simp [OnTransportCandidatesReady, h, kAllowedCandidates]

/-- Witness for the amended C2: the no-duplicate invariant at a concrete
overshooting run, the 4-entry bound at a concrete run whose names stay
within a 4-name pool. -/
theorem c2_candidate_set_bounded_witness :
    (candNames (runReady (initCandState true)
      [batchFive]).local_candidates).Nodup ∧
    (runReady (initCandState true)
      [[candA, candB], [candC, candD, candA]]).local_candidates.length ≤ 4 :=
  ⟨(c2_candidate_set_bounded true [] [batchFive]).1,
   (c2_candidate_set_bounded true ["a", "b", "c", "d"]
      [[candA, candB], [candC, candD, candA]]).2.1 ⟨by decide, by decide⟩⟩

/-- Invariant tying the notification log to the candidate set when an
observer is registered: the single notification has been delivered exactly
when the set holds exactly kAllowedCandidates entries. -/
def NotifyInv (s : CandState) : Prop :=
  s.observer = true ∧
  ((s.local_candidates.length = kAllowedCandidates ∧
    s.notifications = [s.local_candidates]) ∨
   (s.local_candidates.length ≠ kAllowedCandidates ∧ s.notifications = []))

theorem ready_preserves_notifyInv (s : CandState) (b : List Candidate)
    (h : NotifyInv s) : NotifyInv (OnTransportCandidatesReady s b) := by
  obtain ⟨hobs, hcases⟩ := h
  unfold OnTransportCandidatesReady
  by_cases hg : s.local_candidates.length == kAllowedCandidates
  · simpa [hg] using ⟨hobs, hcases⟩
  · have hne : s.local_candidates.length ≠ kAllowedCandidates := by
      simpa using hg
    have hnot : s.notifications = [] := by
      rcases hcases with ⟨h4, _⟩ | ⟨_, h0⟩
      · exact absurd h4 hne
      · exact h0
    by_cases hg2 : (InsertTransportCandidates s.local_candidates b).length
        == kAllowedCandidates
    · have h4 : (InsertTransportCandidates s.local_candidates b).length
          = kAllowedCandidates := by simpa using hg2
      simp only [hg, if_false, Bool.false_eq_true, hg2, hobs, Bool.and_true,
        if_true]
      exact ⟨by simp, Or.inl ⟨by simpa using h4, by simp [hnot]⟩⟩
    · have h4 : (InsertTransportCandidates s.local_candidates b).length
          ≠ kAllowedCandidates := by simpa using hg2
      simp only [hg, if_false, Bool.false_eq_true, hg2, hobs, Bool.and_true]
      exact ⟨by simp, Or.inr ⟨by simpa using h4, by simpa using hnot⟩⟩

theorem runReady_preserves_notifyInv (batches : List (List Candidate)) :
    ∀ s : CandState, NotifyInv s → NotifyInv (runReady s batches) := by
  induction batches with
  | nil => intro s h; simpa [runReady] using h
  | cons b rest ih =>
    intro s h
    have h1 := ready_preserves_notifyInv s b h
    simpa [runReady] using ih (OnTransportCandidatesReady s b) h1

/-- C3 counterexample: with an observer registered, a single batch of five
distinct channel names makes the set jump from zero to five entries, so
the fourth unique-named candidate is accepted during that event yet the
observer is never notified. -/
theorem c3_counterexample_overshoot :
    4 ≤ (runReady (initCandState true) [batchFive]).local_candidates.length ∧
    (runReady (initCandState true) [batchFive]).notifications = [] := by
  decide

/-- C3 (amended): with an observer registered for the whole session, the
notification is delivered exactly once if the candidate set ever reaches
exactly kAllowedCandidates entries, and never otherwise; every delivered
notification carries the full set of kAllowedCandidates candidates. -/
theorem c3_notification_iff_exactly_four (batches : List (List Candidate)) :
    ((runReady (initCandState true) batches).local_candidates.length
        = kAllowedCandidates →
      (runReady (initCandState true) batches).notifications
        = [(runReady (initCandState true) batches).local_candidates]) ∧
    ((runReady (initCandState true) batches).local_candidates.length
        ≠ kAllowedCandidates →
      (runReady (initCandState true) batches).notifications = []) ∧
    (runReady (initCandState true) batches).notifications.length ≤ 1 ∧
    (∀ n ∈ (runReady (initCandState true) batches).notifications,
      n.length = kAllowedCandidates) := by
  have hinv : NotifyInv (runReady (initCandState true) batches) := by
    refine runReady_preserves_notifyInv batches (initCandState true) ?_
    refine ⟨rfl, Or.inr ⟨?_, rfl⟩⟩
    simp [initCandState, kAllowedCandidates]
  obtain ⟨-, hcases⟩ := hinv
  rcases hcases with ⟨h4, hnot⟩ | ⟨hne, hnot⟩
  · refine ⟨fun _ => hnot, fun h => absurd h4 h, ?_, ?_⟩
    · simp [hnot]
    · intro n hn
      rw [hnot] at hn
      simp only [List.mem_singleton] at hn
      rw [hn]
      exact h4
  · refine ⟨fun h => absurd h hne, fun _ => hnot, ?_, ?_⟩
    · simp [hnot]
    · intro n hn
      rw [hnot] at hn
      exact absurd hn (List.not_mem_nil n)

/-- Witness for the amended C3: four singleton batches reach exactly four
entries and the notification is delivered with the full set. -/
theorem c3_notification_witness :
    (runReady (initCandState true)
        [[candA], [candB], [candC], [candD]]).notifications
      = [(runReady (initCandState true)
        [[candA], [candB], [candC], [candD]]).local_candidates] :=
  (c3_notification_iff_exactly_four [[candA], [candB], [candC], [candD]]).1
    (by decide)

theorem runCand_frozen_at_cap (evs : List SessionEvent) :
    ∀ s : CandState, s.local_candidates.length = kAllowedCandidates →
      (runCand s evs).local_candidates = s.local_candidates ∧
      (runCand s evs).notifications = s.notifications := by
  induction evs with
  | nil => intro s _; exact ⟨rfl, rfl⟩
  | cons e rest ih =>
    intro s h
    have hstep : (stepCand s e).local_candidates = s.local_candidates ∧
        (stepCand s e).notifications = s.notifications := by
      cases e with
      | candidatesReady b =>
        simp [stepCand, OnTransportCandidatesReady, h]
      | registerObserver b =>
        exact ⟨rfl, rfl⟩
    have hlen : (stepCand s e).local_candidates.length = kAllowedCandidates := by
      rw [hstep.1]; exact h
    obtain ⟨h1, h2⟩ := ih (stepCand s e) hlen
    refine ⟨?_, ?_⟩
    · calc (runCand s (e :: rest)).local_candidates
          = (runCand (stepCand s e) rest).local_candidates := rfl
        _ = (stepCand s e).local_candidates := h1
        _ = s.local_candidates := hstep.1
    · calc (runCand s (e :: rest)).notifications
          = (runCand (stepCand s e) rest).notifications := rfl
        _ = (stepCand s e).notifications := h2
        _ = s.notifications := hstep.2

theorem ready_no_observer_no_notify (s : CandState) (b : List Candidate)
    (h : s.observer = false) :
    (OnTransportCandidatesReady s b).notifications = s.notifications := by
  unfold OnTransportCandidatesReady
  by_cases hg : s.local_candidates.length == kAllowedCandidates
  · simp [hg]
  · simp [hg, h]

/-- C9: when no observer is registered at the event that brings the local
candidate set to exactly kAllowedCandidates entries, the notification is
skipped at that event, and no later event sequence, including registering
an observer afterwards, can deliver it or change the set. -/
theorem c9_missed_notification_unrecoverable (s0 : CandState)
    (hobs : s0.observer = false) (hnot : s0.notifications = [])
    (batch : List Candidate)
    (h4 : (OnTransportCandidatesReady s0 batch).local_candidates.length
      = kAllowedCandidates)
    (evs : List SessionEvent) :
    (OnTransportCandidatesReady s0 batch).notifications = [] ∧
    (runCand (OnTransportCandidatesReady s0 batch) evs).notifications = [] ∧
    (runCand (OnTransportCandidatesReady s0 batch) evs).local_candidates
      = (OnTransportCandidatesReady s0 batch).local_candidates := by
  have h1 : (OnTransportCandidatesReady s0 batch).notifications = [] := by
    rw [ready_no_observer_no_notify s0 batch hobs]
    exact hnot
  obtain ⟨h2, h3⟩ := runCand_frozen_at_cap evs (OnTransportCandidatesReady s0 batch) h4
  exact ⟨h1, by rw [h3]; exact h1, h2⟩

/-- Witness for C9: four unique-named candidates arrive with no observer;
registering one and delivering a fifth candidate afterwards leaves the
notification log empty and the set unchanged. -/
theorem c9_missed_notification_witness :
    (OnTransportCandidatesReady (initCandState false)
        [candA, candB, candC, candD]).notifications = [] ∧
    (runCand (OnTransportCandidatesReady (initCandState false)
        [candA, candB, candC, candD])
      [.registerObserver true, .candidatesReady [candE]]).notifications = [] ∧
    (runCand (OnTransportCandidatesReady (initCandState false)
        [candA, candB, candC, candD])
      [.registerObserver true, .candidatesReady [candE]]).local_candidates
      = (OnTransportCandidatesReady (initCandState false)
        [candA, candB, candC, candD]).local_candidates :=
  c9_missed_notification_unrecoverable (initCandState false) rfl rfl
    [candA, candB, candC, candD] (by decide)
    [.registerObserver true, .candidatesReady [candE]]

/-- A media content description; the session logic inspects only the
number of streams. -/
structure MediaContentDescription where
  streams : Nat
  deriving DecidableEq, Repr

/-- A session description as consumed by NegotiationDone: the first audio
content and the first video content, each possibly absent. -/
structure SessionDescription where
  audio : Option MediaContentDescription
  video : Option MediaContentDescription
  deriving DecidableEq, Repr

/-- Observable state of a voice or video channel. -/
structure MediaChannel where
  enabled : Bool
  muted : Bool
  deriving DecidableEq, Repr

/-- One call into a channel collaborator, recorded in order. -/
inductive ChannelEffect where
  | enableVoice (b : Bool)
  | enableVideo (b : Bool)
  | muteVoice (b : Bool)
  | muteVideo (b : Bool)
  deriving DecidableEq, Repr

/-- The slice of WebRtcSession state read and written by NegotiationDone:
the BaseSession state, the log of SetState calls, both channels, the local
description, and the log of Enable and Mute calls issued to the channels. -/
structure NegotiationState where
  state : SessionState
  state_log : List SessionState
  voice_channel : MediaChannel
  video_channel : MediaChannel
  local_description : SessionDescription
  effects : List ChannelEffect
  deriving DecidableEq, Repr

/-- WebRtcSession::NegotiationDone: when the state is INIT, SetState is
called with SENT_INITIATE then RECEIVED_ACCEPT and both channels are
enabled; then, outside that guard, each channel whose local content is
present is muted exactly when that content has zero streams. -/
def NegotiationDone (s : NegotiationState) : NegotiationState :=
  let s :=
    if s.state = SessionState.STATE_INIT then
      { s with
        state := SessionState.STATE_RECEIVEDACCEPT,
        state_log := s.state_log ++
          [SessionState.STATE_SENTINITIATE, SessionState.STATE_RECEIVEDACCEPT],
        voice_channel := { s.voice_channel with enabled := true },
        video_channel := { s.video_channel with enabled := true },
        effects := s.effects ++
          [ChannelEffect.enableVoice true, ChannelEffect.enableVideo true] }
    else s
  let s :=
    match s.local_description.audio with
    | some audio_content =>
      { s with
        voice_channel := { s.voice_channel with
          muted := audio_content.streams == 0 },
        effects := s.effects ++
          [ChannelEffect.muteVoice (audio_content.streams == 0)] }
    | none => s
  match s.local_description.video with
  | some video_content =>
    { s with
      video_channel := { s.video_channel with
        muted := video_content.streams == 0 },
      effects := s.effects ++
        [ChannelEffect.muteVideo (video_content.streams == 0)] }
  | none => s

/-- Counts the Mute calls in an effect log. -/
def muteEffectCount (l : List ChannelEffect) : Nat :=
  (l.filter (fun e =>
    match e with
    | ChannelEffect.muteVoice _ => true
    | ChannelEffect.muteVideo _ => true
    | _ => false)).length

/-- Counts the Enable calls in an effect log. -/
def enableEffectCount (l : List ChannelEffect) : Nat :=
  (l.filter (fun e =>
    match e with
    | ChannelEffect.enableVoice _ => true
    | ChannelEffect.enableVideo _ => true
    | _ => false)).length

/-- A concrete NegotiationDone starting state: INIT, both channels
disabled and unmuted, audio and video contents present with zero
streams. -/
def negotiationEx : NegotiationState :=
  { state := SessionState.STATE_INIT,
    state_log := [],
    voice_channel := { enabled := false, muted := false },
    video_channel := { enabled := false, muted := false },
    local_description := { audio := some { streams := 0 },
                           video := some { streams := 0 } },
    effects := [] }

/-- C1 counterexample: after one NegotiationDone call the state is no
longer INIT, yet a second call is not a no-op: it issues the Mute side
effects again, so four Mute calls have been logged instead of two. -/
theorem c1_counterexample_second_call_mutes :
    NegotiationDone (NegotiationDone negotiationEx)
      ≠ NegotiationDone negotiationEx ∧
    muteEffectCount (NegotiationDone negotiationEx).effects = 2 ∧
    muteEffectCount (NegotiationDone (NegotiationDone negotiationEx)).effects
      = 4 := by
  decide

/-- C1 (amended): the INIT to SENT_INITIATE to RECEIVED_ACCEPT transition,
the channel enables, and their side effects happen exactly when the state
is INIT, hence at most once per session; but the Mute side effects are
issued outside that guard, on every call, once per present local content. -/
theorem c1_transition_and_enable_once (s : NegotiationState) :
    (s.state = SessionState.STATE_INIT →
      (NegotiationDone s).state = SessionState.STATE_RECEIVEDACCEPT ∧
      (NegotiationDone s).state_log = s.state_log ++
        [SessionState.STATE_SENTINITIATE, SessionState.STATE_RECEIVEDACCEPT] ∧
      (NegotiationDone s).voice_channel.enabled = true ∧
      (NegotiationDone s).video_channel.enabled = true ∧
      enableEffectCount (NegotiationDone s).effects
        = enableEffectCount s.effects + 2) ∧
    (s.state ≠ SessionState.STATE_INIT →
      (NegotiationDone s).state = s.state ∧
      (NegotiationDone s).state_log = s.state_log ∧
      (NegotiationDone s).voice_channel.enabled = s.voice_channel.enabled ∧
      (NegotiationDone s).video_channel.enabled = s.video_channel.enabled ∧
      enableEffectCount (NegotiationDone s).effects
        = enableEffectCount s.effects) ∧
    (NegotiationDone s).state ≠ SessionState.STATE_INIT ∧
    (NegotiationDone (NegotiationDone s)).state_log
      = (NegotiationDone s).state_log ∧
    enableEffectCount (NegotiationDone (NegotiationDone s)).effects
      = enableEffectCount (NegotiationDone s).effects ∧
    muteEffectCount (NegotiationDone s).effects = muteEffectCount s.effects +
      ((if s.local_description.audio.isSome then 1 else 0) +
       (if s.local_description.video.isSome then 1 else 0)) := by
  obtain ⟨st, log, vc, vd, ⟨a, v⟩, eff⟩ := s
  cases st <;> cases a <;> cases v <;>
    simp [NegotiationDone, enableEffectCount, muteEffectCount,
      List.filter_append]

/-- Witness for the amended C1 at a concrete INIT state. -/
theorem c1_transition_witness :
    negotiationEx.state = SessionState.STATE_INIT ∧
    (NegotiationDone negotiationEx).state
      = SessionState.STATE_RECEIVEDACCEPT :=
  ⟨rfl, ((c1_transition_and_enable_once negotiationEx).1 rfl).1⟩

/-- Counts the Mute calls issued to the voice channel. -/
def muteVoiceCount (l : List ChannelEffect) : Nat :=
  (l.filter (fun e =>
    match e with
    | ChannelEffect.muteVoice _ => true
    | _ => false)).length

/-- Counts the Mute calls issued to the video channel. -/
def muteVideoCount (l : List ChannelEffect) : Nat :=
  (l.filter (fun e =>
    match e with
    | ChannelEffect.muteVideo _ => true
    | _ => false)).length

/-- C10: NegotiationDone writes a channel mute state exactly when the
corresponding local content is present, and then sets it to whether the
content has zero streams; with the content absent the mute state is
untouched and no Mute call is issued for that channel. -/
theorem c10_mute_only_when_content_present (s : NegotiationState) :
    (s.local_description.audio = none →
      (NegotiationDone s).voice_channel.muted = s.voice_channel.muted ∧
      muteVoiceCount (NegotiationDone s).effects
        = muteVoiceCount s.effects) ∧
    (∀ a, s.local_description.audio = some a →
      (NegotiationDone s).voice_channel.muted = (a.streams == 0) ∧
      muteVoiceCount (NegotiationDone s).effects
        = muteVoiceCount s.effects + 1) ∧
    (s.local_description.video = none →
      (NegotiationDone s).video_channel.muted = s.video_channel.muted ∧
      muteVideoCount (NegotiationDone s).effects
        = muteVideoCount s.effects) ∧
    (∀ v, s.local_description.video = some v →
      (NegotiationDone s).video_channel.muted = (v.streams == 0) ∧
      muteVideoCount (NegotiationDone s).effects
        = muteVideoCount s.effects + 1) := by
  obtain ⟨st, log, vc, vd, ⟨a, v⟩, eff⟩ := s
  cases st <;> cases a <;> cases v <;>
    simp [NegotiationDone, muteVoiceCount, muteVideoCount,
      List.filter_append]

/-- Witness for C10 at a concrete state whose audio content has zero
streams: the voice channel ends muted. -/
theorem c10_mute_witness :
    negotiationEx.local_description.audio = some { streams := 0 } ∧
    (NegotiationDone negotiationEx).voice_channel.muted = true :=
  ⟨rfl, by
    have h := ((c10_mute_only_when_content_present negotiationEx).2.1
      { streams := 0 } rfl).1
    simpa using h⟩

/-- MediaSessionOptions as consumed by ProvideOffer: only the has_video
flag is inspected. -/
structure MediaSessionOptions where
  has_video : Bool
  deriving DecidableEq, Repr

/-- WebRtcSession::ProvideOffer: when options lack video support, log a
warning and return nothing, leaving the local description untouched;
otherwise build the offer from the options and the current local
description via the description factory, adopt it as the new local
description, and return it. The factory is passed in as the
collaborator function create_offer; the result pairs the returned value
with the new local description. -/
def ProvideOffer
    (create_offer : MediaSessionOptions → Option SessionDescription →
      SessionDescription)
    (local_description : Option SessionDescription)
    (options : MediaSessionOptions) :
    Option SessionDescription × Option SessionDescription :=
  if !options.has_video then
    (none, local_description)
  else
    let offer := create_offer options local_description
    (some offer, some offer)

/-- C4: without video support ProvideOffer returns nothing and leaves the
local description unchanged; with video support it adopts and returns the
factory-built offer. -/
theorem c4_provide_offer_requires_video
    (create_offer : MediaSessionOptions → Option SessionDescription →
      SessionDescription)
    (local_description : Option SessionDescription)
    (options : MediaSessionOptions) :
    (options.has_video = false →
      ProvideOffer create_offer local_description options
        = (none, local_description)) ∧
    (options.has_video = true →
      ProvideOffer create_offer local_description options
        = (some (create_offer options local_description),
           some (create_offer options local_description))) := by
  constructor
  · intro h
    simp [ProvideOffer, h]
  · intro h
    simp [ProvideOffer, h]

/-- Witness for C4: with has_video false the offer is refused and the
local description survives. -/
theorem c4_provide_offer_witness :
    ProvideOffer (fun _ _ => { audio := none, video := none })
        (some { audio := some { streams := 1 }, video := none })
        { has_video := false }
      = (none, some { audio := some { streams := 1 }, video := none }) :=
  (c4_provide_offer_requires_video
    (fun _ _ => { audio := none, video := none })
    (some { audio := some { streams := 1 }, video := none })
    { has_video := false }).1 rfl

/-- The transport attributes read by OnTransportWritable. -/
structure Transport where
  hasChannels : Bool
  writable : Bool
  deriving DecidableEq, Repr

/-- talk_base::Thread::Clear for one receiver: remove every pending
message with the given id from the signaling-thread queue. Each queue
entry is a pair of the posting delay in milliseconds and the message id. -/
def clearMessages (queue : List (Nat × Nat)) (id : Nat) : List (Nat × Nat) :=
  queue.filter (fun m => !(m.2 == id))

/-- WebRtcSession::OnTransportWritable: clear any pending candidate
timeout, then, when the transport has channels but is not writable, post
one delayed candidate-timeout message kCallSetupTimeout milliseconds out. -/
def OnTransportWritable (queue : List (Nat × Nat)) (transport : Transport) :
    List (Nat × Nat) :=
  let queue := clearMessages queue MSG_CANDIDATE_TIMEOUT
  if transport.hasChannels && !transport.writable then
    queue ++ [(kCallSetupTimeout, MSG_CANDIDATE_TIMEOUT)]
  else
    queue

/-- WebRtcSession::OnTransportConnecting: delegates to
OnTransportWritable. -/
def OnTransportConnecting (queue : List (Nat × Nat)) (transport : Transport) :
    List (Nat × Nat) :=
  OnTransportWritable queue transport

/-- WebRtcSession::OnMessage: a delivered candidate-timeout message
signals one session error; any other message is ignored. The error count
stands for the number of SignalError emissions. -/
def OnMessage (errors : Nat) (message_id : Nat) : Nat :=
  if message_id == MSG_CANDIDATE_TIMEOUT then errors + 1 else errors

/-- Number of pending candidate-timeout messages in the queue. -/
def watchdogCount (queue : List (Nat × Nat)) : Nat :=
  (queue.filter (fun m => m.2 == MSG_CANDIDATE_TIMEOUT)).length

/-- Errors signalled if every pending message were delivered. -/
def drainErrors (queue : List (Nat × Nat)) : Nat :=
  queue.foldl (fun e m => OnMessage e m.2) 0

/-- Run a sequence of transport connecting/writable events on the queue. -/
def runWritable (queue : List (Nat × Nat)) (ts : List Transport) :
    List (Nat × Nat) :=
  ts.foldl OnTransportWritable queue

theorem drainErrors_foldl (queue : List (Nat × Nat)) :
    ∀ e : Nat, queue.foldl (fun e m => OnMessage e m.2) e
      = e + watchdogCount queue := by
  induction queue with
  | nil => intro e; simp [watchdogCount]
  | cons m rest ih =>
    intro e
    rw [List.foldl_cons, ih (OnMessage e m.2)]
    by_cases h : m.2 == MSG_CANDIDATE_TIMEOUT
    · simp [OnMessage, watchdogCount, h]
      omega
    · simp [OnMessage, watchdogCount, h]

theorem drainErrors_eq_watchdogCount (queue : List (Nat × Nat)) :
    drainErrors queue = watchdogCount queue := by
  simpa using drainErrors_foldl queue 0

theorem watchdogCount_append (a b : List (Nat × Nat)) :
    watchdogCount (a ++ b) = watchdogCount a + watchdogCount b := by
  simp [watchdogCount, List.filter_append]

theorem watchdogCount_clear (queue : List (Nat × Nat)) :
    watchdogCount (clearMessages queue MSG_CANDIDATE_TIMEOUT) = 0 := by
  simp [watchdogCount, clearMessages, List.filter_filter]

theorem watchdogCount_event (queue : List (Nat × Nat)) (t : Transport) :
    watchdogCount (OnTransportWritable queue t)
      = if t.hasChannels && !t.writable then 1 else 0 := by
  unfold OnTransportWritable
  by_cases h : t.hasChannels && !t.writable
  · simp only [h, if_true]
    rw [watchdogCount_append, watchdogCount_clear]
    simp [watchdogCount]
  · simp only [h, if_false, Bool.false_eq_true]
    rw [watchdogCount_clear]

theorem runWritable_le_one (ts : List Transport) :
    ∀ queue : List (Nat × Nat), watchdogCount queue ≤ 1 →
      watchdogCount (runWritable queue ts) ≤ 1 := by
  induction ts with
  | nil => intro q h; simpa [runWritable] using h
  | cons t rest ih =>
    intro q h
    have h1 : watchdogCount (OnTransportWritable q t) ≤ 1 := by
      rw [watchdogCount_event]
      by_cases hc : t.hasChannels && !t.writable <;> simp [hc]
    simpa [runWritable] using ih (OnTransportWritable q t) h1

/-- C5: every transport connecting or writable event first clears any
pending candidate-timeout message and only then, when the transport has
channels and is not writable, posts exactly one watchdog message 30000 ms
out; so after any event at most one watchdog is pending, over any event
sequence at most one stays pending, and two consecutive writable events
for a still-not-writable transport can yield at most one error signal. -/
theorem c5_single_watchdog (queue : List (Nat × Nat)) (t : Transport)
    (ts : List Transport) :
    OnTransportWritable queue t
      = clearMessages queue MSG_CANDIDATE_TIMEOUT ++
        (if t.hasChannels && !t.writable
         then [(kCallSetupTimeout, MSG_CANDIDATE_TIMEOUT)] else []) ∧
    OnTransportConnecting queue t = OnTransportWritable queue t ∧
    kCallSetupTimeout = 30000 ∧
    watchdogCount (OnTransportWritable queue t)
      = (if t.hasChannels && !t.writable then 1 else 0) ∧
    (watchdogCount queue ≤ 1 → watchdogCount (runWritable queue ts) ≤ 1) ∧
    drainErrors (OnTransportWritable (OnTransportWritable queue t) t) ≤ 1 := by
  refine ⟨?_, rfl, rfl, watchdogCount_event queue t, runWritable_le_one ts queue, ?_⟩
  · unfold OnTransportWritable
    by_cases h : t.hasChannels && !t.writable <;> simp [h]
  · rw [drainErrors_eq_watchdogCount, watchdogCount_event]
    by_cases hc : t.hasChannels && !t.writable <;> simp [hc]

/-- Witness for C5 at a concrete queue and a not-yet-writable transport
with channels: after the event exactly one watchdog message is pending. -/
theorem c5_single_watchdog_witness :
    watchdogCount (OnTransportWritable [(7, MSG_CANDIDATE_TIMEOUT)]
      { hasChannels := true, writable := false }) = 1 ∧
    watchdogCount (runWritable [(7, MSG_CANDIDATE_TIMEOUT)]
      [{ hasChannels := true, writable := false },
       { hasChannels := true, writable := false }]) ≤ 1 := by
  constructor
  · have h := (c5_single_watchdog [(7, MSG_CANDIDATE_TIMEOUT)]
      { hasChannels := true, writable := false } []).2.2.2.1
    simpa using h
  · exact (c5_single_watchdog [(7, MSG_CANDIDATE_TIMEOUT)]
      { hasChannels := true, writable := false }
      [{ hasChannels := true, writable := false },
       { hasChannels := true, writable := false }]).2.2.2.2.1 (by decide)

/-- Whether a candidate channel name addresses the video rtp or rtcp
channel. -/
def isVideoCandidateName (n : String) : Bool :=
  n == kRtpVideoChannelStr || n == kRtcpVideoChannelStr

/-- The partition loop of WebRtcSession::SetRemoteCandidates: walk the
input, pushing video rtp/rtcp named candidates into the video bucket and
every other candidate into the audio bucket, preserving order. The result
pairs the audio bucket with the video bucket. -/
def partitionCandidates : List Candidate → List Candidate × List Candidate
  | [] => ([], [])
  | c :: rest =>
    let (audio_candidates, video_candidates) := partitionCandidates rest
    if isVideoCandidateName c.name then
      (audio_candidates, c :: video_candidates)
    else
      (c :: audio_candidates, video_candidates)

/-- A TransportProxy: whether it has negotiated, and the candidates its
concrete implementation has received via OnRemoteCandidates. -/
structure TransportProxy where
  negotiated : Bool
  impl_candidates : List Candidate
  deriving DecidableEq, Repr

/-- The per-bucket body of WebRtcSession::SetRemoteCandidates: an empty
bucket is not delivered; an absent proxy is skipped after an informational
log; a present proxy completes negotiation first when it has not yet
negotiated, then forwards the bucket to its implementation. -/
def deliverCandidates (proxy : Option TransportProxy)
    (bucket : List Candidate) : Option TransportProxy :=
  if bucket.isEmpty then proxy
  else
    match proxy with
    | none => none
    | some p =>
      let p := if !p.negotiated then { p with negotiated := true } else p
      some { p with impl_candidates := p.impl_candidates ++ bucket }

/-- The transport proxies of the session, one per media content name. -/
structure TransportProxies where
  audio_proxy : Option TransportProxy
  video_proxy : Option TransportProxy
  deriving DecidableEq, Repr

/-- WebRtcSession::SetRemoteCandidates: partition the input into audio and
video buckets, then deliver each bucket to its proxy. -/
def SetRemoteCandidates (proxies : TransportProxies)
    (candidates : List Candidate) : TransportProxies :=
  let (audio_candidates, video_candidates) := partitionCandidates candidates
  { audio_proxy := deliverCandidates proxies.audio_proxy audio_candidates,
    video_proxy := deliverCandidates proxies.video_proxy video_candidates }

theorem partitionCandidates_eq_filter (candidates : List Candidate) :
    (partitionCandidates candidates).1
      = candidates.filter (fun c => !(isVideoCandidateName c.name)) ∧
    (partitionCandidates candidates).2
      = candidates.filter (fun c => isVideoCandidateName c.name) := by
  induction candidates with
  | nil => simp [partitionCandidates]
  | cons c rest ih =>
    by_cases h : isVideoCandidateName c.name
    · simp [partitionCandidates, h, ih.1, ih.2]
    · simp [partitionCandidates, h, ih.1, ih.2]

/-- C6: SetRemoteCandidates routes exactly the candidates named video_rtp
or video_rtcp to the video bucket and every other candidate to the audio
bucket; an empty bucket leaves its proxy alone, an absent proxy is
skipped, and a present proxy ends negotiated with the bucket forwarded to
its implementation. -/
theorem c6_partition_and_deliver (proxies : TransportProxies)
    (candidates : List Candidate) :
    (partitionCandidates candidates).2
      = candidates.filter (fun c => isVideoCandidateName c.name) ∧
    (partitionCandidates candidates).1
      = candidates.filter (fun c => !(isVideoCandidateName c.name)) ∧
    SetRemoteCandidates proxies candidates
      = { audio_proxy := deliverCandidates proxies.audio_proxy
            (partitionCandidates candidates).1,
          video_proxy := deliverCandidates proxies.video_proxy
            (partitionCandidates candidates).2 } ∧
    (∀ bucket : List Candidate, deliverCandidates none bucket = none) ∧
    (∀ p : Option TransportProxy, deliverCandidates p [] = p) ∧
    (∀ (p : TransportProxy) (bucket : List Candidate), bucket ≠ [] →
      deliverCandidates (some p) bucket
        = some { negotiated := true,
                 impl_candidates := p.impl_candidates ++ bucket }) := by
  refine ⟨(partitionCandidates_eq_filter candidates).2,
    (partitionCandidates_eq_filter candidates).1, ?_, ?_, ?_, ?_⟩
  · unfold SetRemoteCandidates
    rfl
  · intro bucket
    unfold deliverCandidates
    by_cases h : bucket.isEmpty <;> simp [h]
  · intro p
    simp [deliverCandidates]
  · intro p bucket hne
    have h : bucket.isEmpty = false := by
      cases bucket with
      | nil => exact absurd rfl hne
      | cons x xs => rfl
    unfold deliverCandidates
    rw [h]
    by_cases hn : p.negotiated
    · simp [hn]
    · simp [hn]

/-- Witness for C6: the spec routing example, with both proxies present
and not yet negotiated. -/
theorem c6_partition_witness :
    (partitionCandidates
        [{ name := "video_rtp", address := "" },
         { name := "video_rtcp", address := "" },
         { name := "rtp", address := "" },
         { name := "rtcp", address := "" }]).2
      = [{ name := "video_rtp", address := "" },
         { name := "video_rtcp", address := "" }] ∧
    deliverCandidates (some { negotiated := false, impl_candidates := [] })
        [{ name := "rtp", address := "" }]
      = some { negotiated := true,
               impl_candidates := [{ name := "rtp", address := "" }] } := by
  constructor
  · have h := (c6_partition_and_deliver
      { audio_proxy := none, video_proxy := none }
      [{ name := "video_rtp", address := "" },
       { name := "video_rtcp", address := "" },
       { name := "rtp", address := "" },
       { name := "rtcp", address := "" }]).1
    rw [h]
    decide
  · have h := (c6_partition_and_deliver
      { audio_proxy := none, video_proxy := none } []).2.2.2.2.2
      { negotiated := false, impl_candidates := [] }
      [{ name := "rtp", address := "" }] (by decide)
    simpa using h

/-- The channel handles owned by the session, with the handles passed to
the channel manager destroy calls recorded in order. -/
structure ChannelHandles where
  voice_channel : Option Nat
  video_channel : Option Nat
  destroyed_voice : List Nat
  destroyed_video : List Nat
  deriving DecidableEq, Repr

/-- WebRtcSession::CreateChannels: ask the channel manager for a voice
channel; on failure return false at once. Then ask it for a video channel
paired with the voice channel; on failure return false, leaving the voice
channel allocated. The channel manager is passed in as the two creation
functions; a none result models a failed creation. -/
def CreateChannels (create_voice_channel : Option Nat)
    (create_video_channel : Nat → Option Nat)
    (s : ChannelHandles) : ChannelHandles × Bool :=
  let s := { s with voice_channel := create_voice_channel }
  match s.voice_channel with
  | none => (s, false)
  | some voice =>
    let s := { s with video_channel := create_video_channel voice }
    match s.video_channel with
    | none => (s, false)
    | some _ => (s, true)

/-- Secure media policies; Initialize requires secure media. -/
inductive SecureMediaPolicy where
  | SEC_DISABLED
  | SEC_ENABLED
  | SEC_REQUIRED
  deriving DecidableEq, Repr

/-- The slice of session state touched by Initialize: the secure policy of
the description factory and the channel handles. -/
structure SetupState where
  secure_policy : Option SecureMediaPolicy
  channels : ChannelHandles
  deriving DecidableEq, Repr

/-- WebRtcSession::Initialize: set the secure policy to SEC_REQUIRED, then
create the channels and return their creation result. -/
def Initialize (create_voice_channel : Option Nat)
    (create_video_channel : Nat → Option Nat)
    (s : SetupState) : SetupState × Bool :=
  let s := { s with secure_policy := some SecureMediaPolicy.SEC_REQUIRED }
  let r := CreateChannels create_voice_channel create_video_channel s.channels
  ({ s with channels := r.1 }, r.2)

/-- WebRtcSession::Terminate: destroy the voice channel through the
channel manager when present, then the video channel when present; a
released handle is cleared so a later call destroys nothing. -/
def Terminate (s : ChannelHandles) : ChannelHandles :=
  let s :=
    match s.voice_channel with
    | some voice =>
      { s with voice_channel := none,
               destroyed_voice := s.destroyed_voice ++ [voice] }
    | none => s
  match s.video_channel with
  | some video =>
    { s with video_channel := none,
             destroyed_video := s.destroyed_video ++ [video] }
  | none => s

/-- Fresh channel handles before any creation or destruction. -/
def freshChannels : ChannelHandles :=
  { voice_channel := none, video_channel := none,
    destroyed_voice := [], destroyed_video := [] }

/-- C7: CreateChannels fails with no voice channel allocated when voice
creation fails, and fails while leaving the voice channel allocated when
only video creation fails; Initialize reports exactly the CreateChannels
result. -/
theorem c7_create_channels_no_rollback (create_voice_channel : Option Nat)
    (create_video_channel : Nat → Option Nat) (s : ChannelHandles)
    (setup : SetupState) :
    (create_voice_channel = none →
      CreateChannels create_voice_channel create_video_channel s
        = ({ s with voice_channel := none }, false)) ∧
    (∀ voice, create_voice_channel = some voice →
      create_video_channel voice = none →
      CreateChannels create_voice_channel create_video_channel s
        = ({ s with voice_channel := some voice, video_channel := none },
           false)) ∧
    (∀ voice video, create_voice_channel = some voice →
      create_video_channel voice = some video →
      CreateChannels create_voice_channel create_video_channel s
        = ({ s with voice_channel := some voice,
                    video_channel := some video }, true)) ∧
    (Initialize create_voice_channel create_video_channel setup).2
      = (CreateChannels create_voice_channel create_video_channel
          setup.channels).2 ∧
    (Initialize create_voice_channel create_video_channel setup).1.secure_policy
      = some SecureMediaPolicy.SEC_REQUIRED := by
  refine ⟨?_, ?_, ?_, rfl, rfl⟩
  · intro h
    subst h
    rfl
  · intro voice hv hvid
    subst hv
    simp [CreateChannels, hvid]
  · intro voice video hv hvid
    subst hv
    simp [CreateChannels, hvid]

/-- Witness for C7: video creation fails after voice creation succeeded;
the call fails and the voice handle 5 remains allocated. -/
theorem c7_create_channels_witness :
    CreateChannels (some 5) (fun _ => none) freshChannels
      = ({ freshChannels with
            voice_channel := some 5, video_channel := none }, false) :=
  ((c7_create_channels_no_rollback (some 5) (fun _ => none) freshChannels
    { secure_policy := none, channels := freshChannels }).2.1) 5 rfl rfl

/-- C8: Terminate clears both handles, records a destroy call for exactly
the handles that were present, and is idempotent: a second Terminate
changes nothing and destroys nothing. -/
theorem c8_terminate_idempotent (s : ChannelHandles) :
    Terminate (Terminate s) = Terminate s ∧
    (Terminate s).voice_channel = none ∧
    (Terminate s).video_channel = none ∧
    (Terminate s).destroyed_voice = s.destroyed_voice ++
      (match s.voice_channel with | some v => [v] | none => []) ∧
    (Terminate s).destroyed_video = s.destroyed_video ++
      (match s.video_channel with | some v => [v] | none => []) := by
  obtain ⟨vc, vd, dc, dd⟩ := s
  cases vc <;> cases vd <;> simp [Terminate]
